import Mathlib

/-!
# dynamic-postgres-scan: `DynamicResultMaps` and `DynamicResultSlices`

A shallow embedding of `main.go`.  Go interface values are a closed inductive type,
a Go slice is `none` (the nil slice) or `some elems`, a Go map is an association
list with unique keys, and a run-time panic is an explicit outcome.  The cursor
(`*sql.Rows`) is a state: the rows not yet advanced to and the count of rows
advanced past.  The external libraries (`strconv`, `lib/pq`) are parameters.
-/

namespace DynamicScan

/-! ## Go values -/

/-- Contents of a Go `[]byte` or `string`: a sequence of octets. -/
abbrev Bytes := List Nat

/-- Go `error` values, by message; `none : Option GoError` is the nil error. -/
abbrev GoError := String

/-- A Go `float64`, identified by its IEEE-754 bit pattern.  The program never
computes with floats, it only stores them. -/
structure Float64 where
  bits : Nat
  deriving DecidableEq, Repr

/-- A Go slice: `none` is the nil slice, `some xs` a non-nil slice holding `xs`. -/
abbrev GoSlice (α : Type) := Option (List α)

/-- Elements of a slice (`range s`); the nil slice has none. -/
def GoSlice.elems {α : Type} (s : GoSlice α) : List α := s.getD []

/-- Go `len(s)`. -/
def GoSlice.len {α : Type} (s : GoSlice α) : Nat := s.elems.length

/-- Go `append(s, x)`: the result is never nil. -/
def GoSlice.append {α : Type} (s : GoSlice α) (x : α) : GoSlice α := some (s.elems ++ [x])

/-- Dynamic values of Go type `interface{}` that occur in the program. -/
inductive GoValue where
  /-- The nil interface: what the driver deposits for SQL NULL, and the zero value of `interface{}`. -/
  | nil
  /-- A `reflect.Value` (the result of `reflect.Zero(t)`), tagged by the type `t`. -/
  | reflectValue (scanType : String)
  | int64 (n : Int)
  | float64 (f : Float64)
  | bool (b : Bool)
  | bytes (b : Bytes)
  | string (s : Bytes)
  | time (t : Int)
  | strings (a : GoSlice Bytes)
  | float64s (a : GoSlice Float64)
  | int64s (a : GoSlice Int)
  | bools (a : GoSlice Bool)
  deriving DecidableEq, Repr

/-- A run-time panic: the failed type assertion `x.([]byte)`, with the dynamic value of `x`. -/
inductive Panic where
  | interfaceConversion (dynamic : GoValue)
  deriving DecidableEq, Repr

/-- Outcome of a Go function with results `(results, err)`: it returns, or it panics. -/
inductive GoResult (α : Type) where
  | returned (results : α) (err : Option GoError)
  | panicked (p : Panic)
  deriving DecidableEq, Repr

/-- Go `x.([]byte)`: yields the bytes, or panics when the dynamic type is not `[]byte`. -/
def assertBytes : GoValue → Except Panic Bytes
  | .bytes b => .ok b
  | v => .error (.interfaceConversion v)

/-! ## Go maps `map[string]interface{}` -/

/-- A Go `map[string]interface{}` as an association list. -/
abbrev GoMap := List (String × GoValue)

/-- Go `make(map[string]interface{})`. -/
def GoMap.make : GoMap := []

/-- Go `v, ok := m[k]`. -/
def GoMap.lookup (m : GoMap) (k : String) : Option GoValue :=
  match m with
  | [] => none
  | (k', v) :: rest => if k' = k then some v else GoMap.lookup rest k

/-- Go `m[k] = v`: replaces the entry of `k` if there is one. -/
def GoMap.store (m : GoMap) (k : String) (v : GoValue) : GoMap :=
  m.filter (fun e => !decide (e.1 = k)) ++ [(k, v)]

/-- Go `m[k]` as an expression: the zero value `nil` when the key is absent. -/
def GoMap.index (m : GoMap) (k : String) : GoValue := (m.lookup k).getD GoValue.nil

/-! ## The cursor `*sql.Rows` -/

/-- A `*sql.ColumnType`, by the three accessors the program calls. -/
structure ColumnType where
  Name : String
  DatabaseTypeName : String
  ScanType : String
  deriving DecidableEq, Repr

/-- What `rows.Scan(valuePtrs...)` does on one row: through the pointer at position `i`
it writes `v` when `deposit[i] = some v` and writes nothing otherwise; it returns `err`. -/
structure ScanOutcome where
  deposit : List (Option GoValue)
  err : Option GoError
  deriving DecidableEq, Repr

/-- State of a `*sql.Rows` cursor. -/
structure Rows where
  /-- Result of `rows.ColumnTypes()`. -/
  ColumnTypes : Except GoError (List ColumnType)
  /-- Result of `rows.Columns()`. -/
  Columns : Except GoError (List String)
  /-- Rows that `rows.Next()` has not yet advanced to. -/
  pending : List ScanOutcome
  /-- Number of rows `rows.Next()` has advanced to so far. -/
  advanced : Nat

/-- Go `reflect.Zero(t)` stored into an `interface{}`: the `reflect.Value` itself. -/
def reflectZero (t : String) : GoValue := GoValue.reflectValue t

/-- The writes of `rows.Scan(valuePtrs...)`, where `valuePtrs[i] = &values[i]`: slot `i`
receives the deposited value when there is one and keeps its content otherwise; the number
of slots does not change. -/
def scanInto : List (Option GoValue) → List GoValue → List GoValue
  | _, [] => []
  | [], v :: vs => v :: vs
  | d :: ds, v :: vs => d.getD v :: scanInto ds vs

/-- Go `rows.Scan(valuePtrs...)`: slots after the call, and the error. -/
def Scan (row : ScanOutcome) (values : List GoValue) : List GoValue × Option GoError :=
  (scanInto row.deposit values, row.err)

/-! ## External libraries -/

/-- The library functions the program calls. -/
structure Lib where
  /-- Go `strconv.ParseFloat(s, 64)`. -/
  ParseFloat : Bytes → Float64 × Option GoError
  /-- Go `pq.Array(&array).Scan(src)` for `array : []string`: the array afterwards, and the error. -/
  ScanStringArray : GoSlice Bytes → Bytes → GoSlice Bytes × Option GoError
  /-- Go `pq.Array(&array).Scan(src)` for `array : []float64`. -/
  ScanFloat64Array : GoSlice Float64 → Bytes → GoSlice Float64 × Option GoError
  /-- Go `pq.Array(&array).Scan(src)` for `array : []int64`. -/
  ScanInt64Array : GoSlice Int → Bytes → GoSlice Int × Option GoError
  /-- Go `pq.Array(&array).Scan(src)` for `array : []bool`. -/
  ScanBoolArray : GoSlice Bool → Bytes → GoSlice Bool × Option GoError

/-! ## `DynamicResultMaps` -/

/-- Go `s := make([]interface{}, n); for i, x := range xs { s[i] = f x }`, from index `i` on. -/
def rangeStore {α : Type} (f : α → GoValue) : Nat → List α → List GoValue → List GoValue
  | _, [], s => s
  | i, x :: xs, s => rangeStore f (i + 1) xs (s.set i (f x))

/-- Lines 24-29: the fresh slots of one row, `values[i] = reflect.Zero(c.ScanType())`. -/
def zeroValues (columnTypes : List ColumnType) : List GoValue :=
  rangeStore (fun c => reflectZero c.ScanType) 0 columnTypes
    (List.replicate columnTypes.length GoValue.nil)

/-- Lines 37-76: the body of the column loop, one `switch` on `c.DatabaseTypeName()`. -/
def columnStep (lib : Lib) (c : ColumnType) (value : GoValue) (rowResult : GoMap) :
    Except Panic GoMap :=
  if c.DatabaseTypeName = "_TEXT" ∨ c.DatabaseTypeName = "_UUID" then
    match assertBytes value with
    | .error p => .error p
    | .ok src =>
      let array := (lib.ScanStringArray (some []) src).1
      .ok (rowResult.store c.Name (GoValue.strings array))
  else if c.DatabaseTypeName = "_NUMERIC" ∨ c.DatabaseTypeName = "_DECIMAL" then
    match assertBytes value with
    | .error p => .error p
    | .ok src =>
      let array := (lib.ScanFloat64Array (some []) src).1
      .ok (rowResult.store c.Name (GoValue.float64s array))
  else if c.DatabaseTypeName = "_INT4" then
    match assertBytes value with
    | .error p => .error p
    | .ok src =>
      let array := (lib.ScanInt64Array (some []) src).1
      .ok (rowResult.store c.Name (GoValue.int64s array))
  else if c.DatabaseTypeName = "_BOOL" then
    match assertBytes value with
    | .error p => .error p
    | .ok src =>
      let array := (lib.ScanBoolArray (some []) src).1
      .ok (rowResult.store c.Name (GoValue.bools array))
  else if c.DatabaseTypeName = "NUMERIC" ∨ c.DatabaseTypeName = "DECIMAL" then
    match assertBytes value with
    | .error p => .error p
    | .ok src =>
      match lib.ParseFloat src with
      | (_, some _) => .ok rowResult
      | (f, none) => .ok (rowResult.store c.Name (GoValue.float64 f))
  else if c.DatabaseTypeName = "UUID" then
    match assertBytes value with
    | .error p => .error p
    | .ok src => .ok (rowResult.store c.Name (GoValue.string src))
  else
    .ok (rowResult.store c.Name value)

/-- Lines 36-77: `for i, c := range columnTypes` over the columns paired with `values[i]`. -/
def columnLoop (lib : Lib) : List (ColumnType × GoValue) → GoMap → Except Panic GoMap
  | [], rowResult => .ok rowResult
  | (c, value) :: rest, rowResult =>
    match columnStep lib c value rowResult with
    | .error p => .error p
    | .ok rowResult' => columnLoop lib rest rowResult'

/-- Lines 24-32: the slots of one row after `rows.Scan`, whose error is dropped. -/
def scannedValues (columnTypes : List ColumnType) (row : ScanOutcome) : List GoValue :=
  (Scan row (zeroValues columnTypes)).1

/-- Columns of a row paired with their slots after `rows.Scan`, as the column loop reads
them: `c` and `values[i]`. -/
def rowCells (columnTypes : List ColumnType) (row : ScanOutcome) : List (ColumnType × GoValue) :=
  columnTypes.zip (scannedValues columnTypes row)

/-- Lines 24-77: the mapping of one row. -/
def rowMapping (lib : Lib) (columnTypes : List ColumnType) (row : ScanOutcome) :
    Except Panic GoMap :=
  columnLoop lib (rowCells columnTypes row) GoMap.make

/-- Lines 22-80: `for rows.Next() { ... results = append(results, rowResult) }`. -/
def rowLoop (lib : Lib) (columnTypes : List ColumnType) (rows : Rows) :
    List ScanOutcome → Nat → GoSlice GoMap → GoResult (GoSlice GoMap) × Rows
  | [], n, results =>
    (.returned results none, { rows with pending := [], advanced := n })
  | row :: rest, n, results =>
    match rowMapping lib columnTypes row with
    | .error p => (.panicked p, { rows with pending := rest, advanced := n + 1 })
    | .ok rowResult => rowLoop lib columnTypes rows rest (n + 1) (results.append rowResult)

/-- Lines 14-83: `DynamicResultMaps`, with the cursor state it leaves. -/
def DynamicResultMaps (lib : Lib) (rows : Rows) : GoResult (GoSlice GoMap) × Rows :=
  match rows.ColumnTypes with
  | .error err => (.returned none (some err), rows)
  | .ok columnTypes => rowLoop lib columnTypes rows rows.pending rows.advanced none

/-! ## `DynamicResultSlices` -/

/-- Lines 99-102: `newSlice := make([]interface{}, len(columns))`, then `newSlice[i] = m[name]`. -/
def newSlice (columns : List String) (m : GoMap) : List GoValue :=
  rangeStore (fun name => m.index name) 0 columns (List.replicate columns.length GoValue.nil)

/-- Lines 98-104: `for _, m := range mapResults { ... results = append(results, newSlice) }`. -/
def sliceLoop (columns : List String) :
    List GoMap → GoSlice (List GoValue) → GoSlice (List GoValue)
  | [], results => results
  | m :: rest, results => sliceLoop columns rest (results.append (newSlice columns m))

/-- Lines 88-107: `DynamicResultSlices`, with the cursor state it leaves. -/
def DynamicResultSlices (lib : Lib) (rows : Rows) : GoResult (GoSlice (List GoValue)) × Rows :=
  match rows.Columns with
  | .error err => (.returned none (some err), rows)
  | .ok columns =>
    match DynamicResultMaps lib rows with
    | (.panicked p, rows') => (.panicked p, rows')
    | (.returned _ (some err), rows') => (.returned none (some err), rows')
    | (.returned mapResults none, rows') =>
      (.returned (sliceLoop columns mapResults.elems none) none, rows')

/-! ## What one column contributes -/

/-- What the body of the column loop does with one cell, read off `columnStep` on the
empty map: it panics, it leaves the map alone, or it stores one value under the column name. -/
inductive CellOutcome where
  | panics (p : Panic)
  | skips
  | stores (v : GoValue)
  deriving DecidableEq, Repr

/-- Outcome of `columnStep` for column `c` whose slot holds `value`. -/
def cellOutcome (lib : Lib) (c : ColumnType) (value : GoValue) : CellOutcome :=
  match columnStep lib c value GoMap.make with
  | .error p => .panics p
  | .ok m =>
    match m.lookup c.Name with
    | none => .skips
    | some w => .stores w

/-! ## Concrete cursors

A library instance defined on a few inputs, where it agrees with `strconv.ParseFloat`
and with the array scanners of `lib/pq`, and cursors to run the program on. -/

/-- The octets of an ASCII text. -/
def ascii (s : String) : Bytes := s.toList.map Char.toNat

/-- The empty array in PostgreSQL's text encoding: an opening and a closing brace. -/
def emptyArrayText : Bytes := [123, 125]

/-- A library defined by table: `"1.5"` parses to the float 1.5 and no other text parses;
the empty array text scans to the array cut to length zero, `a[:0]`, the text of the
array of `a` and `b` and the text of the array of 1 and 2 scan to those arrays, and no
other text scans, which leaves the array as it was. -/
def tableLib : Lib where
  ParseFloat := fun s =>
    if s = [49, 46, 53] then (⟨0x3FF8000000000000⟩, none)
    else (⟨0⟩, some "strconv.ParseFloat: parsing: invalid syntax")
  ScanStringArray := fun a src =>
    if src = emptyArrayText then (a.map (fun xs => xs.take 0), none)
    else if src = [123, 97, 44, 98, 125] then (some [[97], [98]], none)
    else (a, some "pq: unable to parse array")
  ScanFloat64Array := fun a src =>
    if src = emptyArrayText then (a.map (fun xs => xs.take 0), none)
    else (a, some "pq: unable to parse array")
  ScanInt64Array := fun a src =>
    if src = emptyArrayText then (a.map (fun xs => xs.take 0), none)
    else if src = [123, 49, 44, 50, 125] then (some [1, 2], none)
    else (a, some "pq: unable to parse array")
  ScanBoolArray := fun a src =>
    if src = emptyArrayText then (a.map (fun xs => xs.take 0), none)
    else (a, some "pq: unable to parse array")

/-- Columns `id integer, amount numeric`; two rows, the first with an amount that does
not parse. -/
def sampleRows : Rows where
  ColumnTypes := .ok [⟨"id", "INT4", "int32"⟩, ⟨"amount", "NUMERIC", "interface \x7b\x7d"⟩]
  Columns := .ok ["id", "amount"]
  pending :=
    [⟨[some (.int64 1), some (.bytes (ascii "NaNgarbage"))], none⟩,
     ⟨[some (.int64 2), some (.bytes (ascii "1.5"))], none⟩]
  advanced := 0

/-- The cursor `sampleRows` once `DynamicResultMaps` has consumed it. -/
def sampleRowsDone : Rows := { sampleRows with pending := [], advanced := 2 }

/-- A cursor over a query that yields no row. -/
def emptyRows : Rows where
  ColumnTypes := .ok [⟨"id", "INT4", "int32"⟩]
  Columns := .ok ["id"]
  pending := []
  advanced := 0

/-- A cursor that cannot report its column types. -/
def noColumnTypesRows : Rows where
  ColumnTypes := .error "sql: Rows are closed"
  Columns := .ok ["id"]
  pending := [⟨[some (.int64 1)], none⟩]
  advanced := 0

/-- A cursor that cannot report its column names. -/
def noColumnsRows : Rows where
  ColumnTypes := .ok [⟨"id", "INT4", "int32"⟩]
  Columns := .error "sql: Rows are closed"
  pending := [⟨[some (.int64 1)], none⟩]
  advanced := 0

/-- Column `amount numeric`; one row, whose amount is SQL NULL. -/
def nullNumericRows : Rows where
  ColumnTypes := .ok [⟨"amount", "NUMERIC", "interface \x7b\x7d"⟩]
  Columns := .ok ["amount"]
  pending := [⟨[some .nil], none⟩]
  advanced := 0

/-- Column `amount numeric`; one row, whose scan fails and deposits nothing. -/
def failedScanRows : Rows where
  ColumnTypes := .ok [⟨"amount", "NUMERIC", "interface \x7b\x7d"⟩]
  Columns := .ok ["amount"]
  pending := [⟨[none], some "sql: Rows are closed"⟩]
  advanced := 0

/-- Whether the outcome of a cell is a panic. -/
def CellOutcome.panicking : CellOutcome → Bool
  | .panics _ => true
  | _ => false

/-- Columns `id, id` of type integer; one row with the values 1 and 2. -/
def collidingRows : Rows where
  ColumnTypes := .ok [⟨"id", "INT4", "int32"⟩, ⟨"id", "INT4", "int32"⟩]
  Columns := .ok ["id", "id"]
  pending := [⟨[some (.int64 1), some (.int64 2)], none⟩]
  advanced := 0

/-- Columns `id, id, id` of type integer; one row with the values 1, 2 and 3. -/
def tripleIdRows : Rows where
  ColumnTypes := .ok [⟨"id", "INT4", "int32"⟩, ⟨"id", "INT4", "int32"⟩, ⟨"id", "INT4", "int32"⟩]
  Columns := .ok ["id", "id", "id"]
  pending := [⟨[some (.int64 1), some (.int64 2), some (.int64 3)], none⟩]
  advanced := 0

/-- Columns `id integer, id numeric`; one row whose numeric text does not parse. -/
def idThenNumericRows : Rows where
  ColumnTypes := .ok [⟨"id", "INT4", "int32"⟩, ⟨"id", "NUMERIC", "interface \x7b\x7d"⟩]
  Columns := .ok ["id", "id"]
  pending := [⟨[some (.int64 1), some (.bytes (ascii "NaNgarbage"))], none⟩]
  advanced := 0

/-- Columns `amount text, amount numeric`; one row whose numeric text does not parse. -/
def numericCollisionRows : Rows where
  ColumnTypes := .ok [⟨"amount", "TEXT", "string"⟩, ⟨"amount", "NUMERIC", "interface \x7b\x7d"⟩]
  Columns := .ok ["amount", "amount"]
  pending := [⟨[some (.string (ascii "n/a")), some (.bytes (ascii "NaNgarbage"))], none⟩]
  advanced := 0

/-- Columns `x integer, x text`; one row with the values 1 and `a`. -/
def passthroughCollisionRows : Rows where
  ColumnTypes := .ok [⟨"x", "INT4", "int32"⟩, ⟨"x", "TEXT", "string"⟩]
  Columns := .ok ["x", "x"]
  pending := [⟨[some (.int64 1), some (.string (ascii "a"))], none⟩]
  advanced := 0

/-- Raw bytes of a uuid cell. -/
def uuidText : Bytes := ascii "123e4567-e89b-12d3-a456-426614174000"

/-- Raw bytes of another uuid cell. -/
def otherUuidText : Bytes := ascii "00000000-0000-0000-0000-000000000000"

/-- Column `u uuid`; one row. -/
def uuidRows : Rows where
  ColumnTypes := .ok [⟨"u", "UUID", "interface \x7b\x7d"⟩]
  Columns := .ok ["u"]
  pending := [⟨[some (.bytes uuidText)], none⟩]
  advanced := 0

/-- Columns `u uuid, u uuid`; one row with two different uuids. -/
def uuidCollisionRows : Rows where
  ColumnTypes := .ok [⟨"u", "UUID", "interface \x7b\x7d"⟩, ⟨"u", "UUID", "interface \x7b\x7d"⟩]
  Columns := .ok ["u", "u"]
  pending := [⟨[some (.bytes uuidText), some (.bytes otherUuidText)], none⟩]
  advanced := 0

/-- Column `tags text[]`; one row whose cell is the empty array. -/
def arrayRows : Rows where
  ColumnTypes := .ok [⟨"tags", "_TEXT", "interface \x7b\x7d"⟩]
  Columns := .ok ["tags"]
  pending := [⟨[some (.bytes emptyArrayText)], none⟩]
  advanced := 0

/-- Columns `tags text[], tags integer`; one row with the empty array and 7. -/
def arrayCollisionRows : Rows where
  ColumnTypes := .ok [⟨"tags", "_TEXT", "interface \x7b\x7d"⟩, ⟨"tags", "INT4", "int32"⟩]
  Columns := .ok ["tags", "tags"]
  pending := [⟨[some (.bytes emptyArrayText), some (.int64 7)], none⟩]
  advanced := 0

/-! ## Lemmas: slices and slots -/

theorem rangeStore_append {α : Type} (f : α → GoValue) (xs : List α) :
    ∀ (done rest : List GoValue), rest.length = xs.length →
      rangeStore f done.length xs (done ++ rest) = done ++ xs.map f := by
  induction xs with
  | nil =>
    intro done rest h
    have : rest = [] := List.length_eq_zero.mp h
    simp [rangeStore, this]
  | cons x xs ih =>
    intro done rest h
    cases rest with
    | nil => simp at h
    | cons y ys =>
      have hset : (done ++ y :: ys).set done.length (f x) = (done ++ [f x]) ++ ys := by
        rw [List.set_append_right _ _ (le_refl _)]
        simp
      have hlen : (done ++ [f x]).length = done.length + 1 := by simp
      simp only [rangeStore, hset]
      rw [← hlen, ih (done ++ [f x]) ys (by simpa using h)]
      simp

theorem rangeStore_replicate {α : Type} (f : α → GoValue) (xs : List α) :
    rangeStore f 0 xs (List.replicate xs.length GoValue.nil) = xs.map f := by
  have h := rangeStore_append f xs [] (List.replicate xs.length GoValue.nil) (by simp)
  simpa using h

theorem zeroValues_eq (columnTypes : List ColumnType) :
    zeroValues columnTypes = columnTypes.map (fun c => reflectZero c.ScanType) :=
  rangeStore_replicate _ columnTypes

theorem newSlice_eq (columns : List String) (m : GoMap) :
    newSlice columns m = columns.map (fun name => m.index name) :=
  rangeStore_replicate _ columns

theorem scanInto_length (ds : List (Option GoValue)) (vs : List GoValue) :
    (scanInto ds vs).length = vs.length := by
  induction vs generalizing ds with
  | nil => cases ds <;> simp [scanInto]
  | cons v vs ih => cases ds <;> simp [scanInto, ih]

theorem scanInto_getElem? (ds : List (Option GoValue)) (vs : List GoValue) (i : Nat) :
    (scanInto ds vs)[i]? = (vs[i]?).map (fun v => ((ds[i]?).getD none).getD v) := by
  induction vs generalizing ds i with
  | nil => cases ds <;> simp [scanInto]
  | cons v vs ih =>
    cases ds with
    | nil => cases i <;> simp [scanInto]
    | cons d ds => cases i <;> simp [scanInto, ih]

theorem scannedValues_length (columnTypes : List ColumnType) (row : ScanOutcome) :
    (scannedValues columnTypes row).length = columnTypes.length := by
  simp [scannedValues, Scan, scanInto_length, zeroValues_eq]

/-- The slot of column `i` after `rows.Scan`: the deposited value when there is one. -/
theorem scannedValues_deposited (columnTypes : List ColumnType) (row : ScanOutcome) (i : Nat)
    (c : ColumnType) (v : GoValue) (hc : columnTypes[i]? = some c)
    (hd : row.deposit[i]? = some (some v)) :
    (scannedValues columnTypes row)[i]? = some v := by
  simp [scannedValues, Scan, scanInto_getElem?, zeroValues_eq, hc, hd]

theorem rowCells_deposited (columnTypes : List ColumnType) (row : ScanOutcome) (i : Nat)
    (c : ColumnType) (v : GoValue) (hc : columnTypes[i]? = some c)
    (hd : row.deposit[i]? = some (some v)) :
    (rowCells columnTypes row)[i]? = some (c, v) := by
  rw [rowCells, List.getElem?_zip_eq_some]
  exact ⟨hc, scannedValues_deposited columnTypes row i c v hc hd⟩

/-! ## Lemmas: maps -/

theorem GoMap.lookup_append (a b : GoMap) (k : String) :
    GoMap.lookup (a ++ b) k = (GoMap.lookup a k).orElse (fun _ => GoMap.lookup b k) := by
  induction a with
  | nil => simp [GoMap.lookup]
  | cons e a ih =>
    obtain ⟨k', v⟩ := e
    by_cases h : k' = k <;> simp [GoMap.lookup, h, ih]

theorem GoMap.lookup_filter_self (m : GoMap) (k : String) :
    GoMap.lookup (m.filter (fun e => !decide (e.1 = k))) k = none := by
  induction m with
  | nil => simp [GoMap.lookup]
  | cons e m ih =>
    obtain ⟨k', v⟩ := e
    by_cases h : k' = k <;> simp [List.filter_cons, GoMap.lookup, h, ih]

theorem GoMap.lookup_filter_ne (m : GoMap) (k n : String) (hn : n ≠ k) :
    GoMap.lookup (m.filter (fun e => !decide (e.1 = k))) n = GoMap.lookup m n := by
  induction m with
  | nil => simp [GoMap.lookup]
  | cons e m ih =>
    obtain ⟨k', v⟩ := e
    by_cases h : k' = k
    · have hkn : ¬ k = n := fun h' => hn h'.symm
      simp [List.filter_cons, GoMap.lookup, h, ih, hkn]
    · by_cases h' : k' = n
      · subst h'
        simp [List.filter_cons, GoMap.lookup, h]
      · simp [List.filter_cons, GoMap.lookup, h, h', ih]

theorem GoMap.lookup_store_self (m : GoMap) (k : String) (v : GoValue) :
    (m.store k v).lookup k = some v := by
  simp [GoMap.store, GoMap.lookup_append, GoMap.lookup_filter_self, GoMap.lookup]

theorem GoMap.lookup_store_ne (m : GoMap) (k n : String) (v : GoValue) (hn : n ≠ k) :
    (m.store k v).lookup n = m.lookup n := by
  have hk : ¬ k = n := fun h => hn h.symm
  simp only [GoMap.store, GoMap.lookup_append, GoMap.lookup_filter_ne m k n hn, GoMap.lookup, hk,
    if_false]
  cases GoMap.lookup m n <;> rfl

/-! ## Lemmas: the column loop -/

/-- The body of the column loop in terms of its outcome on the cell. -/
theorem columnStep_eq (lib : Lib) (c : ColumnType) (v : GoValue) (m : GoMap) :
    columnStep lib c v m =
      match cellOutcome lib c v with
      | .panics p => .error p
      | .skips => .ok m
      | .stores w => .ok (m.store c.Name w) := by
  simp only [cellOutcome, columnStep]
  split_ifs
  all_goals first
    | (cases assertBytes v with
        | error p => rfl
        | ok src =>
          simp only [GoMap.lookup_store_self]
          try (rcases lib.ParseFloat src with ⟨f, _ | e⟩ <;>
            simp [GoMap.lookup_store_self, GoMap.make, GoMap.lookup]))
    | simp only [GoMap.lookup_store_self]

theorem columnLoop_cons (lib : Lib) (c : ColumnType) (v : GoValue)
    (rest : List (ColumnType × GoValue)) (m : GoMap) :
    columnLoop lib ((c, v) :: rest) m =
      match cellOutcome lib c v with
      | .panics p => .error p
      | .skips => columnLoop lib rest m
      | .stores w => columnLoop lib rest (m.store c.Name w) := by
  simp only [columnLoop, columnStep_eq]
  cases cellOutcome lib c v <;> rfl

/-- The column loop returns a mapping when no cell panics. -/
theorem columnLoop_ok_of_no_panic (lib : Lib) (l : List (ColumnType × GoValue)) :
    ∀ (m0 : GoMap), (∀ cv ∈ l, ∀ p, cellOutcome lib cv.1 cv.2 ≠ .panics p) →
      ∃ m : GoMap, columnLoop lib l m0 = .ok m := by
  induction l with
  | nil => intro m0 _; exact ⟨m0, rfl⟩
  | cons cv l ih =>
    intro m0 h
    obtain ⟨c, v⟩ := cv
    have hc := h (c, v) (List.mem_cons_self _ _)
    have hl : ∀ cv ∈ l, ∀ p, cellOutcome lib cv.1 cv.2 ≠ .panics p :=
      fun cv hcv => h cv (List.mem_cons_of_mem _ hcv)
    rw [columnLoop_cons]
    cases hco : cellOutcome lib c v with
    | panics p => exact absurd hco (hc p)
    | skips => exact ih m0 hl
    | stores w => exact ih _ hl

/-- Columns that store nothing under the name `n` leave the entry of `n` as it was. -/
theorem columnLoop_lookup_skips (lib : Lib) (n : String) (l : List (ColumnType × GoValue)) :
    ∀ (m0 m : GoMap), columnLoop lib l m0 = .ok m →
      (∀ cv ∈ l, cv.1.Name = n → cellOutcome lib cv.1 cv.2 = .skips) →
      m.lookup n = m0.lookup n := by
  induction l with
  | nil =>
    intro m0 m h _
    simp only [columnLoop, Except.ok.injEq] at h
    rw [h]
  | cons cv l ih =>
    intro m0 m h hs
    obtain ⟨c, v⟩ := cv
    have hl : ∀ cv ∈ l, cv.1.Name = n → cellOutcome lib cv.1 cv.2 = .skips :=
      fun cv hcv => hs cv (List.mem_cons_of_mem _ hcv)
    rw [columnLoop_cons] at h
    cases hco : cellOutcome lib c v with
    | panics p => simp [hco] at h
    | skips =>
      simp only [hco] at h
      exact ih m0 m h hl
    | stores w =>
      simp only [hco] at h
      have hne : n ≠ c.Name := by
        intro hn
        have := hs (c, v) (List.mem_cons_self _ _) hn.symm
        simp [hco] at this
      rw [ih _ m h hl, GoMap.lookup_store_ne _ _ _ _ hne]

/-- Last write wins: the entry of a column name is the value stored by the last column of
that name that stores one. -/
theorem columnLoop_lookup_last (lib : Lib) (l : List (ColumnType × GoValue)) :
    ∀ (i : Nat) (m0 m : GoMap) (c : ColumnType) (v w : GoValue),
      columnLoop lib l m0 = .ok m → l[i]? = some (c, v) → cellOutcome lib c v = .stores w →
      (∀ cv ∈ l.drop (i + 1), cv.1.Name = c.Name → cellOutcome lib cv.1 cv.2 = .skips) →
      m.lookup c.Name = some w := by
  induction l with
  | nil => intro i m0 m c v w _ hi; simp at hi
  | cons cv l ih =>
    intro i m0 m c v w h hi hw hlast
    obtain ⟨c', v'⟩ := cv
    cases i with
    | zero =>
      simp only [List.getElem?_cons_zero, Option.some.injEq, Prod.mk.injEq] at hi
      obtain ⟨rfl, rfl⟩ := hi
      rw [columnLoop_cons, hw] at h
      simp only [zero_add, List.drop_succ_cons, List.drop_zero] at hlast
      rw [columnLoop_lookup_skips lib c'.Name l _ m h hlast, GoMap.lookup_store_self]
    | succ i =>
      simp only [List.getElem?_cons_succ] at hi
      simp only [List.drop_succ_cons] at hlast
      rw [columnLoop_cons] at h
      cases hco : cellOutcome lib c' v' with
      | panics p => simp [hco] at h
      | skips =>
        simp only [hco] at h
        exact ih i m0 m c v w h hi hw hlast
      | stores w' =>
        simp only [hco] at h
        exact ih i _ m c v w h hi hw hlast

/-- A column that stores nothing can be left out of the row. -/
theorem columnLoop_eraseIdx_skips (lib : Lib) (l : List (ColumnType × GoValue)) :
    ∀ (i : Nat) (m0 : GoMap) (c : ColumnType) (v : GoValue),
      l[i]? = some (c, v) → cellOutcome lib c v = .skips →
      columnLoop lib l m0 = columnLoop lib (l.eraseIdx i) m0 := by
  induction l with
  | nil => intro i m0 c v hi; simp at hi
  | cons cv l ih =>
    intro i m0 c v hi hs
    obtain ⟨c', v'⟩ := cv
    cases i with
    | zero =>
      simp only [List.getElem?_cons_zero, Option.some.injEq, Prod.mk.injEq] at hi
      obtain ⟨rfl, rfl⟩ := hi
      rw [columnLoop_cons, hs]
      rfl
    | succ i =>
      simp only [List.getElem?_cons_succ] at hi
      simp only [List.eraseIdx_cons_succ, columnLoop_cons]
      cases cellOutcome lib c' v' with
      | panics p => rfl
      | skips => exact ih i m0 c v hi hs
      | stores w' => exact ih i _ c v hi hs

/-! ## Lemmas: outcome of a cell by declared type -/

theorem cellOutcome_default (lib : Lib) (c : ColumnType) (v : GoValue)
    (ht : c.DatabaseTypeName ∉
      ["_TEXT", "_UUID", "_NUMERIC", "_DECIMAL", "_INT4", "_BOOL", "NUMERIC", "DECIMAL", "UUID"]) :
    cellOutcome lib c v = .stores v := by
  simp only [List.mem_cons, List.mem_singleton, not_or, List.not_mem_nil, or_false] at ht
  obtain ⟨h1, h2, h3, h4, h5, h6, h7, h8, h9⟩ := ht
  simp [cellOutcome, columnStep, h1, h2, h3, h4, h5, h6, h7, h8, h9, GoMap.lookup_store_self]

theorem cellOutcome_uuid (lib : Lib) (c : ColumnType) (b : Bytes)
    (ht : c.DatabaseTypeName = "UUID") :
    cellOutcome lib c (.bytes b) = .stores (.string b) := by
  simp [cellOutcome, columnStep, ht, assertBytes, GoMap.lookup_store_self]

theorem cellOutcome_numeric_fail (lib : Lib) (c : ColumnType) (b : Bytes)
    (ht : c.DatabaseTypeName = "NUMERIC" ∨ c.DatabaseTypeName = "DECIMAL")
    (hf : (lib.ParseFloat b).2 ≠ none) :
    cellOutcome lib c (.bytes b) = .skips := by
  rcases hp : lib.ParseFloat b with ⟨f, _ | e⟩
  · simp [hp] at hf
  · rcases ht with ht | ht <;>
      simp [cellOutcome, columnStep, ht, assertBytes, hp, GoMap.make, GoMap.lookup]

theorem cellOutcome_numeric_ok (lib : Lib) (c : ColumnType) (b : Bytes) (f : Float64)
    (ht : c.DatabaseTypeName = "NUMERIC" ∨ c.DatabaseTypeName = "DECIMAL")
    (hf : lib.ParseFloat b = (f, none)) :
    cellOutcome lib c (.bytes b) = .stores (.float64 f) := by
  rcases ht with ht | ht <;>
    simp [cellOutcome, columnStep, ht, assertBytes, hf, GoMap.lookup_store_self]

/-- A cell of a column decoded from bytes panics exactly when its slot holds no `[]byte`. -/
theorem cellOutcome_not_bytes (lib : Lib) (c : ColumnType) (v : GoValue)
    (ht : c.DatabaseTypeName ∈
      ["_TEXT", "_UUID", "_NUMERIC", "_DECIMAL", "_INT4", "_BOOL", "NUMERIC", "DECIMAL", "UUID"])
    (hv : ∀ b, v ≠ .bytes b) :
    cellOutcome lib c v = .panics (.interfaceConversion v) := by
  have ha : assertBytes v = .error (.interfaceConversion v) := by
    cases v <;> first | rfl | exact absurd rfl (hv _)
  simp only [List.mem_cons, List.mem_singleton, List.not_mem_nil, or_false] at ht
  rcases ht with ht | ht | ht | ht | ht | ht | ht | ht | ht <;>
    simp [cellOutcome, columnStep, ht, ha]

theorem cellOutcome_bytes_no_panic (lib : Lib) (c : ColumnType) (b : Bytes) (p : Panic) :
    cellOutcome lib c (.bytes b) ≠ .panics p := by
  simp only [cellOutcome, columnStep, assertBytes]
  split_ifs <;> first
    | (simp [GoMap.lookup_store_self]; done)
    | (rcases lib.ParseFloat b with ⟨f, _ | e⟩ <;>
        simp [GoMap.lookup_store_self, GoMap.make, GoMap.lookup])

/-! ## Lemmas: the row loop and the two entry points -/

theorem GoSlice.elems_append {α : Type} (s : GoSlice α) (x : α) :
    (s.append x).elems = s.elems ++ [x] := rfl

/-- The row loop returns exactly when every pending row yields a mapping; it then returns
the mappings in order, without error, and leaves the cursor exhausted. -/
theorem rowLoop_returned (lib : Lib) (columnTypes : List ColumnType) (rows : Rows)
    (pending : List ScanOutcome) :
    ∀ (n : Nat) (results res : GoSlice GoMap) (err : Option GoError) (rows' : Rows),
      rowLoop lib columnTypes rows pending n results = (.returned res err, rows') →
      err = none ∧ rows' = { rows with pending := [], advanced := n + pending.length } ∧
      ∃ ms, pending.map (rowMapping lib columnTypes) = ms.map Except.ok ∧
        res.elems = results.elems ++ ms := by
  induction pending with
  | nil =>
    intro n results res err rows' h
    simp only [rowLoop, Prod.mk.injEq, GoResult.returned.injEq] at h
    obtain ⟨⟨rfl, rfl⟩, rfl⟩ := h
    exact ⟨rfl, rfl, [], rfl, by simp⟩
  | cons row pending ih =>
    intro n results res err rows' h
    simp only [rowLoop] at h
    cases hrow : rowMapping lib columnTypes row with
    | error p => simp [hrow] at h
    | ok m =>
      simp only [hrow] at h
      obtain ⟨he, hr, ms, hms, hres⟩ := ih _ _ _ _ _ h
      refine ⟨he, ?_, m :: ms, ?_, ?_⟩
      · rw [hr]; simp [Nat.add_comm, Nat.add_left_comm]
      · simp [hrow, hms]
      · rw [hres, GoSlice.elems_append]; simp

/-- The row loop returns when every pending row yields a mapping. -/
theorem rowLoop_of_mappings (lib : Lib) (columnTypes : List ColumnType) (rows : Rows)
    (pending : List ScanOutcome) :
    ∀ (n : Nat) (results : GoSlice GoMap),
      (∀ row ∈ pending, ∃ m : GoMap, rowMapping lib columnTypes row = .ok m) →
      ∃ res, rowLoop lib columnTypes rows pending n results =
        (.returned res none, { rows with pending := [], advanced := n + pending.length }) := by
  induction pending with
  | nil => intro n results _; exact ⟨results, rfl⟩
  | cons row pending ih =>
    intro n results h
    obtain ⟨m, hm⟩ := h row (List.mem_cons_self _ _)
    obtain ⟨res, hres⟩ := ih (n + 1) (results.append m)
      (fun r hr => h r (List.mem_cons_of_mem _ hr))
    refine ⟨res, ?_⟩
    simp only [rowLoop, hm, hres]
    simp [Nat.add_comm, Nat.add_left_comm]

/-- What a returning run of `DynamicResultMaps` returns: no error, one mapping per pending
row in cursor order, each the mapping of its row; the cursor is left exhausted. -/
theorem DynamicResultMaps_returned (lib : Lib) (rows rows' : Rows)
    (columnTypes : List ColumnType) (maps : GoSlice GoMap) (err : Option GoError)
    (hct : rows.ColumnTypes = .ok columnTypes)
    (hm : DynamicResultMaps lib rows = (.returned maps err, rows')) :
    err = none ∧ rows.pending.map (rowMapping lib columnTypes) = maps.elems.map Except.ok ∧
      rows' = { rows with pending := [], advanced := rows.advanced + rows.pending.length } := by
  simp only [DynamicResultMaps, hct] at hm
  obtain ⟨he, hr, ms, hms, hres⟩ := rowLoop_returned lib columnTypes rows _ _ _ _ _ _ hm
  have : maps.elems = ms := by simpa [GoSlice.elems] using hres
  exact ⟨he, by rw [this]; exact hms, hr⟩

/-- The mapping returned for the row at position `j` is the mapping of that row. -/
theorem DynamicResultMaps_row (lib : Lib) (rows rows' : Rows)
    (columnTypes : List ColumnType) (maps : GoSlice GoMap) (err : Option GoError)
    (hct : rows.ColumnTypes = .ok columnTypes)
    (hm : DynamicResultMaps lib rows = (.returned maps err, rows'))
    (j : Nat) (row : ScanOutcome) (hj : rows.pending[j]? = some row) :
    ∃ m : GoMap, maps.elems[j]? = some m ∧ rowMapping lib columnTypes row = .ok m := by
  obtain ⟨_, hmap, _⟩ := DynamicResultMaps_returned lib rows rows' columnTypes maps err hct hm
  have h := congrArg (fun l => l[j]?) hmap
  simp only [List.getElem?_map, hj, Option.map_some'] at h
  cases hmj : maps.elems[j]? with
  | none => simp [hmj] at h
  | some m =>
    simp only [hmj, Option.map_some', Option.some.injEq] at h
    exact ⟨m, rfl, h⟩

theorem sliceLoop_elems (columns : List String) (ms : List GoMap) :
    ∀ (results : GoSlice (List GoValue)),
      (sliceLoop columns ms results).elems = results.elems ++ ms.map (newSlice columns) := by
  induction ms with
  | nil => intro results; simp [sliceLoop]
  | cons m ms ih =>
    intro results
    simp [sliceLoop, ih, GoSlice.elems_append]

/-- `DynamicResultSlices` on a cursor whose column names are available: it re-indexes what
`DynamicResultMaps` returns and leaves the cursor as `DynamicResultMaps` leaves it. -/
theorem DynamicResultSlices_of_maps (lib : Lib) (rows rows' : Rows) (columns : List String)
    (maps : GoSlice GoMap)
    (hc : rows.Columns = .ok columns)
    (hm : DynamicResultMaps lib rows = (.returned maps none, rows')) :
    ∃ slices, DynamicResultSlices lib rows = (.returned slices none, rows') ∧
      slices.elems = maps.elems.map (fun m => columns.map (fun name => m.index name)) := by
  refine ⟨sliceLoop columns maps.elems none, ?_, ?_⟩
  · simp only [DynamicResultSlices, hc, hm]
  · rw [sliceLoop_elems]
    simp [GoSlice.elems, newSlice_eq]

/-- Every returning run of `DynamicResultSlices` re-indexes a returning run of
`DynamicResultMaps`. -/
theorem DynamicResultSlices_returned (lib : Lib) (rows rows' : Rows) (columns : List String)
    (slices : GoSlice (List GoValue)) (err : Option GoError)
    (hc : rows.Columns = .ok columns)
    (hs : DynamicResultSlices lib rows = (.returned slices err, rows')) :
    ∃ maps err', DynamicResultMaps lib rows = (.returned maps err', rows') ∧
      ((err = none ∧ err' = none ∧
          slices.elems = maps.elems.map (fun m => columns.map (fun name => m.index name))) ∨
        (err ≠ none ∧ slices = none)) := by
  simp only [DynamicResultSlices, hc] at hs
  rcases hm : DynamicResultMaps lib rows with ⟨res, r⟩
  rw [hm] at hs
  cases res with
  | panicked p => simp at hs
  | returned maps err' =>
    cases err' with
    | some e =>
      simp only [Prod.mk.injEq, GoResult.returned.injEq] at hs
      obtain ⟨⟨rfl, rfl⟩, rfl⟩ := hs
      exact ⟨maps, some e, rfl, Or.inr ⟨by simp, rfl⟩⟩
    | none =>
      simp only [Prod.mk.injEq, GoResult.returned.injEq] at hs
      obtain ⟨⟨rfl, rfl⟩, rfl⟩ := hs
      refine ⟨maps, none, rfl, Or.inl ⟨rfl, rfl, ?_⟩⟩
      rw [sliceLoop_elems]
      simp [GoSlice.elems, newSlice_eq]

/-- A cell does not panic when its slot holds a `[]byte` or its column's declared type is
none of the nine the column loop decodes from bytes. -/
theorem cellOutcome_no_panic (lib : Lib) (c : ColumnType) (v : GoValue)
    (h : c.DatabaseTypeName ∈
        ["_TEXT", "_UUID", "_NUMERIC", "_DECIMAL", "_INT4", "_BOOL", "NUMERIC", "DECIMAL", "UUID"] →
      ∃ b, v = .bytes b) (p : Panic) :
    cellOutcome lib c v ≠ .panics p := by
  by_cases ht : c.DatabaseTypeName ∈
      ["_TEXT", "_UUID", "_NUMERIC", "_DECIMAL", "_INT4", "_BOOL", "NUMERIC", "DECIMAL", "UUID"]
  · obtain ⟨b, rfl⟩ := h ht
    exact cellOutcome_bytes_no_panic lib c b p
  · rw [cellOutcome_default lib c v ht]
    simp

/-- When every cell of a column decoded from bytes holds a `[]byte`, `DynamicResultMaps`
returns: no error, one mapping per row, the cursor exhausted.  A failed scan, whose error
is dropped, and a numeric text that does not parse do not stop it. -/
theorem DynamicResultMaps_returns_of_bytes (lib : Lib) (rows : Rows)
    (columnTypes : List ColumnType)
    (hct : rows.ColumnTypes = .ok columnTypes)
    (hbytes : ∀ row ∈ rows.pending, ∀ cv ∈ rowCells columnTypes row,
      cv.1.DatabaseTypeName ∈
        ["_TEXT", "_UUID", "_NUMERIC", "_DECIMAL", "_INT4", "_BOOL", "NUMERIC", "DECIMAL", "UUID"] →
      ∃ b, cv.2 = .bytes b) :
    ∃ maps, DynamicResultMaps lib rows =
        (.returned maps none,
          { rows with pending := [], advanced := rows.advanced + rows.pending.length }) ∧
      maps.len = rows.pending.length := by
  have hrows : ∀ row ∈ rows.pending, ∃ m, rowMapping lib columnTypes row = .ok m := by
    intro row hrow
    exact columnLoop_ok_of_no_panic lib _ GoMap.make
      (fun cv hcv p => cellOutcome_no_panic lib cv.1 cv.2 (hbytes row hrow cv hcv) p)
  obtain ⟨maps, hmaps⟩ := rowLoop_of_mappings lib columnTypes rows rows.pending rows.advanced
    none hrows
  have hm : DynamicResultMaps lib rows = (.returned maps none,
      { rows with pending := [], advanced := rows.advanced + rows.pending.length }) := by
    simp only [DynamicResultMaps, hct, hmaps]
  refine ⟨maps, hm, ?_⟩
  obtain ⟨_, hmap, _⟩ := DynamicResultMaps_returned lib rows _ columnTypes maps none hct hm
  have := congrArg List.length hmap
  simpa [GoSlice.len] using this.symm

/-! ## The claims -/

/-- C1: when the cursor reports its column names and `DynamicResultMaps` returns the row
mappings, `DynamicResultSlices` returns one sequence per mapping, each of length exactly
`len(columns)`, and a column whose name has no entry in the row's mapping contributes
`nil` at its position. -/
theorem slices_full_width (lib : Lib) (rows rows' : Rows) (columns : List String)
    (maps : GoSlice GoMap)
    (hc : rows.Columns = .ok columns)
    (hm : DynamicResultMaps lib rows = (.returned maps none, rows')) :
    ∃ slices, DynamicResultSlices lib rows = (.returned slices none, rows') ∧
      slices.len = maps.len ∧
      (∀ s ∈ slices.elems, s.length = columns.length) ∧
      ∀ (j : Nat) (m : GoMap), maps.elems[j]? = some m →
        ∃ s : List GoValue, slices.elems[j]? = some s ∧ s.length = columns.length ∧
          ∀ (i : Nat) (name : String), columns[i]? = some name → m.lookup name = none →
            s[i]? = some GoValue.nil := by
  obtain ⟨slices, hs, hel⟩ := DynamicResultSlices_of_maps lib rows rows' columns maps hc hm
  refine ⟨slices, hs, ?_, ?_, ?_⟩
  · simp [GoSlice.len, hel]
  · intro s hmem
    rw [hel, List.mem_map] at hmem
    obtain ⟨m, _, rfl⟩ := hmem
    simp
  · intro j m hj
    refine ⟨columns.map (fun name => m.index name), ?_, by simp, ?_⟩
    · rw [hel, List.getElem?_map, hj]; rfl
    · intro i name hi hab
      rw [List.getElem?_map, hi]
      simp [GoMap.index, hab]

/-- The theorem `slices_full_width` on `sampleRows`, whose first row has no `amount` entry. -/
theorem slices_full_width_witness :
    ∃ slices, DynamicResultSlices tableLib sampleRows = (.returned slices none, sampleRowsDone) ∧
      slices.len = 2 ∧
      (∀ s ∈ slices.elems, s.length = 2) ∧
      ∀ (j : Nat) (m : GoMap), [[("id", GoValue.int64 1)],
          [("id", GoValue.int64 2), ("amount", GoValue.float64 ⟨0x3FF8000000000000⟩)]][j]? = some m →
        ∃ s : List GoValue, slices.elems[j]? = some s ∧ s.length = 2 ∧
          ∀ (i : Nat) (name : String), ["id", "amount"][i]? = some name → m.lookup name = none →
            s[i]? = some GoValue.nil :=
  slices_full_width tableLib sampleRows sampleRowsDone ["id", "amount"]
    (some [[("id", .int64 1)], [("id", .int64 2), ("amount", .float64 ⟨0x3FF8000000000000⟩)]])
    rfl rfl

/-- C2: for every mapping `DynamicResultMaps` returns and every valid column index `i`, the
`i`-th entry of the sequence `DynamicResultSlices` builds from it is `m[columns[i]]`; when
the mapping has an entry under `columns[i]`, it is the value stored there. -/
theorem slices_reindex_mapping (lib : Lib) (rows rows' : Rows) (columns : List String)
    (maps : GoSlice GoMap)
    (hc : rows.Columns = .ok columns)
    (hm : DynamicResultMaps lib rows = (.returned maps none, rows'))
    (j : Nat) (m : GoMap) (hj : maps.elems[j]? = some m)
    (i : Nat) (name : String) (hi : columns[i]? = some name) :
    ∃ slices s, DynamicResultSlices lib rows = (.returned slices none, rows') ∧
      slices.elems[j]? = some s ∧ s[i]? = some (m.index name) ∧
      ∀ v, m.lookup name = some v → s[i]? = some v := by
  obtain ⟨slices, hs, hel⟩ := DynamicResultSlices_of_maps lib rows rows' columns maps hc hm
  refine ⟨slices, columns.map (fun name => m.index name), hs, ?_, ?_, ?_⟩
  · rw [hel, List.getElem?_map, hj]; rfl
  · rw [List.getElem?_map, hi]; rfl
  · intro v hv
    rw [List.getElem?_map, hi]
    simp [GoMap.index, hv]

/-- The theorem `slices_reindex_mapping` on the second row of `sampleRows`, at the column
`amount`. -/
theorem slices_reindex_mapping_witness :
    ∃ slices s, DynamicResultSlices tableLib sampleRows = (.returned slices none, sampleRowsDone) ∧
      slices.elems[1]? = some s ∧
      s[1]? = some (GoMap.index
        [("id", GoValue.int64 2), ("amount", GoValue.float64 ⟨0x3FF8000000000000⟩)] "amount") ∧
      ∀ v, GoMap.lookup
          [("id", GoValue.int64 2), ("amount", GoValue.float64 ⟨0x3FF8000000000000⟩)] "amount" =
            some v → s[1]? = some v :=
  slices_reindex_mapping tableLib sampleRows sampleRowsDone ["id", "amount"]
    (some [[("id", .int64 1)], [("id", .int64 2), ("amount", .float64 ⟨0x3FF8000000000000⟩)]])
    rfl rfl 1 [("id", .int64 2), ("amount", .float64 ⟨0x3FF8000000000000⟩)] rfl 1 "amount" rfl

/-- C3, as the code has it: on a cursor that reports its columns and yields no row,
`DynamicResultMaps` returns without error the nil slice, whose length is zero, and leaves
the cursor as it was; so does `DynamicResultSlices`. -/
theorem zero_rows_nil_result (lib : Lib) (rows : Rows) (columnTypes : List ColumnType)
    (hct : rows.ColumnTypes = .ok columnTypes) (hp : rows.pending = []) :
    (∃ res, DynamicResultMaps lib rows = (.returned res none, rows) ∧ res = none ∧
        res.len = 0) ∧
      ∀ columns, rows.Columns = .ok columns →
        ∃ res, DynamicResultSlices lib rows = (.returned res none, rows) ∧ res = none ∧
          res.len = 0 := by
  have hm : DynamicResultMaps lib rows = (.returned none none, rows) := by
    cases rows
    simp only at hct hp
    subst hp
    simp [DynamicResultMaps, hct, rowLoop]
  refine ⟨⟨none, hm, rfl, rfl⟩, ?_⟩
  intro columns hc
  refine ⟨none, ?_, rfl, rfl⟩
  simp [DynamicResultSlices, hc, hm, GoSlice.elems, sliceLoop]

/-- The theorem `zero_rows_nil_result` on `emptyRows`. -/
theorem zero_rows_nil_result_witness :
    (∃ res, DynamicResultMaps tableLib emptyRows = (.returned res none, emptyRows) ∧
        res = none ∧ res.len = 0) ∧
      ∀ columns, emptyRows.Columns = .ok columns →
        ∃ res, DynamicResultSlices tableLib emptyRows = (.returned res none, emptyRows) ∧
          res = none ∧ res.len = 0 :=
  zero_rows_nil_result tableLib emptyRows [⟨"id", "INT4", "int32"⟩] rfl rfl

/-- C3 as stated fails: on a cursor with one column and no row, what the two functions
return is the nil slice, not a non-nil empty one. -/
theorem zero_rows_not_nil_counterexample :
    (DynamicResultMaps tableLib emptyRows).1 = .returned none none ∧
      (DynamicResultMaps tableLib emptyRows).1 ≠ .returned (some []) none ∧
      (DynamicResultSlices tableLib emptyRows).1 = .returned none none ∧
      (DynamicResultSlices tableLib emptyRows).1 ≠ .returned (some []) none := by
  refine ⟨rfl, by decide, rfl, by decide⟩

/-- C6: when `rows.ColumnTypes()` fails, `DynamicResultMaps` returns that error with the nil
result set and the cursor untouched; when `rows.Columns()` fails, so does
`DynamicResultSlices`; and `DynamicResultSlices` also passes on the failure of
`rows.ColumnTypes()` inside `DynamicResultMaps`, with no result set and no row consumed. -/
theorem schema_failure_short_circuits (lib : Lib) (rows : Rows) (err : GoError) :
    (rows.ColumnTypes = .error err →
        DynamicResultMaps lib rows = (.returned none (some err), rows)) ∧
      (rows.Columns = .error err →
        DynamicResultSlices lib rows = (.returned none (some err), rows)) ∧
      (rows.ColumnTypes = .error err → ∀ columns, rows.Columns = .ok columns →
        DynamicResultSlices lib rows = (.returned none (some err), rows)) := by
  refine ⟨?_, ?_, ?_⟩
  · intro h
    simp [DynamicResultMaps, h]
  · intro h
    simp [DynamicResultSlices, h]
  · intro h columns hc
    simp [DynamicResultSlices, hc, DynamicResultMaps, h]

/-- The theorem `schema_failure_short_circuits` on a cursor without column types and on one
without column names. -/
theorem schema_failure_short_circuits_witness :
    DynamicResultMaps tableLib noColumnTypesRows =
        (.returned none (some "sql: Rows are closed"), noColumnTypesRows) ∧
      DynamicResultSlices tableLib noColumnsRows =
        (.returned none (some "sql: Rows are closed"), noColumnsRows) ∧
      DynamicResultSlices tableLib noColumnTypesRows =
        (.returned none (some "sql: Rows are closed"), noColumnTypesRows) :=
  ⟨(schema_failure_short_circuits tableLib noColumnTypesRows _).1 rfl,
   (schema_failure_short_circuits tableLib noColumnsRows _).2.1 rfl,
   (schema_failure_short_circuits tableLib noColumnTypesRows _).2.2 rfl _ rfl⟩

/-- C7 fails on the code: with one NUMERIC column whose cell is SQL NULL the type assertion
`values[i].([]byte)` panics, so `DynamicResultMaps` returns nothing, having advanced to the
row; the same happens when the scan of the row fails and leaves the slot unwritten. -/
theorem null_numeric_panics (lib : Lib) :
    DynamicResultMaps lib nullNumericRows =
        (.panicked (.interfaceConversion .nil),
          { nullNumericRows with pending := [], advanced := 1 }) ∧
      DynamicResultMaps lib failedScanRows =
        (.panicked (.interfaceConversion (.reflectValue "interface \x7b\x7d")),
          { failedScanRows with pending := [], advanced := 1 }) :=
  ⟨rfl, rfl⟩

theorem CellOutcome.not_panics_of_panicking {o : CellOutcome} (h : o.panicking = false)
    (p : Panic) : o ≠ .panics p := by
  cases o <;> simp [CellOutcome.panicking] at h ⊢

/-- C4, as the code has it: a NUMERIC or DECIMAL column whose bytes `strconv.ParseFloat`
rejects stores nothing.  When no other cell of the row panics, the row's mapping exists and
is the mapping the other columns alone produce: it has no entry under the column's name
unless another column of that name stores one, every other column that stores a value and
is followed by no storing column of its name is present with that value, and the row loop
appends the mapping and goes on. -/
theorem numeric_parse_failure_skips (lib : Lib) (columnTypes : List ColumnType)
    (row : ScanOutcome) (i : Nat) (c : ColumnType) (b : Bytes)
    (hc : columnTypes[i]? = some c)
    (ht : c.DatabaseTypeName = "NUMERIC" ∨ c.DatabaseTypeName = "DECIMAL")
    (hd : row.deposit[i]? = some (some (.bytes b)))
    (hf : (lib.ParseFloat b).2 ≠ none)
    (hothers : ∀ cv ∈ (rowCells columnTypes row).eraseIdx i,
      (cellOutcome lib cv.1 cv.2).panicking = false) :
    ∃ m : GoMap, rowMapping lib columnTypes row = .ok m ∧
      columnLoop lib ((rowCells columnTypes row).eraseIdx i) GoMap.make = .ok m ∧
      ((∀ cv ∈ (rowCells columnTypes row).eraseIdx i, cv.1.Name = c.Name →
          cellOutcome lib cv.1 cv.2 = .skips) → m.lookup c.Name = none) ∧
      (∀ (k : Nat) (c' : ColumnType) (v' w : GoValue),
        ((rowCells columnTypes row).eraseIdx i)[k]? = some (c', v') →
        cellOutcome lib c' v' = .stores w →
        (∀ cv ∈ ((rowCells columnTypes row).eraseIdx i).drop (k + 1), cv.1.Name = c'.Name →
          cellOutcome lib cv.1 cv.2 = .skips) →
        m.lookup c'.Name = some w) ∧
      ∀ (rows : Rows) (rest : List ScanOutcome) (n : Nat) (results : GoSlice GoMap),
        rowLoop lib columnTypes rows (row :: rest) n results =
          rowLoop lib columnTypes rows rest (n + 1) (results.append m) := by
  have hcell := rowCells_deposited columnTypes row i c _ hc hd
  have hskip := cellOutcome_numeric_fail lib c b ht hf
  obtain ⟨m, hm⟩ := columnLoop_ok_of_no_panic lib _ GoMap.make
    (fun cv hcv p => CellOutcome.not_panics_of_panicking (hothers cv hcv) p)
  have hrow : rowMapping lib columnTypes row = .ok m := by
    rw [rowMapping, columnLoop_eraseIdx_skips lib _ i GoMap.make c _ hcell hskip, hm]
  refine ⟨m, hrow, hm, ?_, ?_, ?_⟩
  · intro hname
    rw [columnLoop_lookup_skips lib c.Name _ GoMap.make m hm hname]
    rfl
  · intro k c' v' w hk hw hlast
    exact columnLoop_lookup_last lib _ k GoMap.make m c' v' w hm hk hw hlast
  · intro rows rest n results
    simp only [rowLoop, hrow]

/-- C5, as the code has it: among the columns of a row that share a name, the value stored
by the last of them that stores one is the entry of that name in the row's mapping, and
every position of the sequence form whose column name is that name holds it. -/
theorem last_storing_column_wins (lib : Lib) (rows rows' : Rows)
    (columnTypes : List ColumnType) (columns : List String) (maps : GoSlice GoMap)
    (hct : rows.ColumnTypes = .ok columnTypes) (hcols : rows.Columns = .ok columns)
    (hm : DynamicResultMaps lib rows = (.returned maps none, rows'))
    (j : Nat) (row : ScanOutcome) (hj : rows.pending[j]? = some row)
    (i : Nat) (c : ColumnType) (v w : GoValue)
    (hcell : (rowCells columnTypes row)[i]? = some (c, v))
    (hw : cellOutcome lib c v = .stores w)
    (hlast : ∀ cv ∈ (rowCells columnTypes row).drop (i + 1), cv.1.Name = c.Name →
      cellOutcome lib cv.1 cv.2 = .skips) :
    ∃ m : GoMap, maps.elems[j]? = some m ∧ m.lookup c.Name = some w ∧
      ∃ slices s, DynamicResultSlices lib rows = (.returned slices none, rows') ∧
        slices.elems[j]? = some s ∧
        ∀ (k : Nat), columns[k]? = some c.Name → s[k]? = some w := by
  obtain ⟨m, hmj, hrow⟩ := DynamicResultMaps_row lib rows rows' columnTypes maps none hct hm j row hj
  have hlook : m.lookup c.Name = some w :=
    columnLoop_lookup_last lib _ i GoMap.make m c v w hrow hcell hw hlast
  obtain ⟨slices, hs, hel⟩ := DynamicResultSlices_of_maps lib rows rows' columns maps hcols hm
  refine ⟨m, hmj, hlook, slices, columns.map (fun name => m.index name), hs, ?_, ?_⟩
  · rw [hel, List.getElem?_map, hmj]; rfl
  · intro k hk
    rw [List.getElem?_map, hk]
    simp [GoMap.index, hlook]

/-- C8, as the code has it: a column whose declared type name is none of the nine decoded
ones stores the value the scan deposited for it, unchanged, whatever the mapping held; the
row's mapping holds that value under the column's name when no later column of the row
with the same name stores a value. -/
theorem passthrough_stores_scanned_value (lib : Lib) (rows rows' : Rows)
    (columnTypes : List ColumnType) (maps : GoSlice GoMap)
    (hct : rows.ColumnTypes = .ok columnTypes)
    (hm : DynamicResultMaps lib rows = (.returned maps none, rows'))
    (j : Nat) (row : ScanOutcome) (hj : rows.pending[j]? = some row)
    (i : Nat) (c : ColumnType) (v : GoValue)
    (hc : columnTypes[i]? = some c)
    (ht : c.DatabaseTypeName ∉
      ["_TEXT", "_UUID", "_NUMERIC", "_DECIMAL", "_INT4", "_BOOL", "NUMERIC", "DECIMAL", "UUID"])
    (hd : row.deposit[i]? = some (some v))
    (hlast : ∀ cv ∈ (rowCells columnTypes row).drop (i + 1), cv.1.Name = c.Name →
      cellOutcome lib cv.1 cv.2 = .skips) :
    (∀ m0, columnStep lib c v m0 = .ok (m0.store c.Name v)) ∧
      ∃ m : GoMap, maps.elems[j]? = some m ∧ m.lookup c.Name = some v := by
  have hw := cellOutcome_default lib c v ht
  refine ⟨fun m0 => by rw [columnStep_eq, hw], ?_⟩
  obtain ⟨m, hmj, hrow⟩ := DynamicResultMaps_row lib rows rows' columnTypes maps none hct hm j row hj
  exact ⟨m, hmj, columnLoop_lookup_last lib _ i GoMap.make m c v v hrow
    (rowCells_deposited columnTypes row i c v hc hd) hw hlast⟩

/-- C9, as the code has it: a UUID column whose scanned value is the byte string `b` stores
the string with exactly the bytes of `b`, whatever the mapping held; the row's mapping
holds that string under the column's name when no later column of the row with the same
name stores a value. -/
theorem uuid_stores_text (lib : Lib) (rows rows' : Rows)
    (columnTypes : List ColumnType) (maps : GoSlice GoMap)
    (hct : rows.ColumnTypes = .ok columnTypes)
    (hm : DynamicResultMaps lib rows = (.returned maps none, rows'))
    (j : Nat) (row : ScanOutcome) (hj : rows.pending[j]? = some row)
    (i : Nat) (c : ColumnType) (b : Bytes)
    (hc : columnTypes[i]? = some c)
    (ht : c.DatabaseTypeName = "UUID")
    (hd : row.deposit[i]? = some (some (.bytes b)))
    (hlast : ∀ cv ∈ (rowCells columnTypes row).drop (i + 1), cv.1.Name = c.Name →
      cellOutcome lib cv.1 cv.2 = .skips) :
    (∀ m0, columnStep lib c (.bytes b) m0 = .ok (m0.store c.Name (.string b))) ∧
      ∃ m : GoMap, maps.elems[j]? = some m ∧ m.lookup c.Name = some (.string b) := by
  have hw := cellOutcome_uuid lib c b ht
  refine ⟨fun m0 => by rw [columnStep_eq, hw], ?_⟩
  obtain ⟨m, hmj, hrow⟩ := DynamicResultMaps_row lib rows rows' columnTypes maps none hct hm j row hj
  exact ⟨m, hmj, columnLoop_lookup_last lib _ i GoMap.make m c _ _ hrow
    (rowCells_deposited columnTypes row i c _ hc hd) hw hlast⟩

theorem cellOutcome_string_array (lib : Lib) (c : ColumnType) (b : Bytes)
    (ht : c.DatabaseTypeName = "_TEXT" ∨ c.DatabaseTypeName = "_UUID") :
    cellOutcome lib c (.bytes b) = .stores (.strings (lib.ScanStringArray (some []) b).1) := by
  rcases ht with ht | ht <;>
    simp [cellOutcome, columnStep, ht, assertBytes, GoMap.lookup_store_self]

theorem cellOutcome_float64_array (lib : Lib) (c : ColumnType) (b : Bytes)
    (ht : c.DatabaseTypeName = "_NUMERIC" ∨ c.DatabaseTypeName = "_DECIMAL") :
    cellOutcome lib c (.bytes b) = .stores (.float64s (lib.ScanFloat64Array (some []) b).1) := by
  rcases ht with ht | ht <;>
    simp [cellOutcome, columnStep, ht, assertBytes, GoMap.lookup_store_self]

theorem cellOutcome_int64_array (lib : Lib) (c : ColumnType) (b : Bytes)
    (ht : c.DatabaseTypeName = "_INT4") :
    cellOutcome lib c (.bytes b) = .stores (.int64s (lib.ScanInt64Array (some []) b).1) := by
  simp [cellOutcome, columnStep, ht, assertBytes, GoMap.lookup_store_self]

theorem cellOutcome_bool_array (lib : Lib) (c : ColumnType) (b : Bytes)
    (ht : c.DatabaseTypeName = "_BOOL") :
    cellOutcome lib c (.bytes b) = .stores (.bools (lib.ScanBoolArray (some []) b).1) := by
  simp [cellOutcome, columnStep, ht, assertBytes, GoMap.lookup_store_self]

/-- C10, as the code has it: given that the array scanners of `lib/pq` leave a fresh empty
array empty on the empty-array text, an array column whose raw cell is that text stores
under its name the non-nil empty slice of its element type, and the row's mapping holds it
when no later column of the row with the same name stores a value. -/
theorem empty_array_decodes_empty (lib : Lib) (rows rows' : Rows)
    (columnTypes : List ColumnType) (maps : GoSlice GoMap)
    (hct : rows.ColumnTypes = .ok columnTypes)
    (hm : DynamicResultMaps lib rows = (.returned maps none, rows'))
    (j : Nat) (row : ScanOutcome) (hj : rows.pending[j]? = some row)
    (i : Nat) (c : ColumnType)
    (hc : columnTypes[i]? = some c)
    (ht : c.DatabaseTypeName ∈ ["_TEXT", "_UUID", "_NUMERIC", "_DECIMAL", "_INT4", "_BOOL"])
    (hd : row.deposit[i]? = some (some (.bytes emptyArrayText)))
    (hstrings : (lib.ScanStringArray (some []) emptyArrayText).1 = some [])
    (hfloats : (lib.ScanFloat64Array (some []) emptyArrayText).1 = some [])
    (hints : (lib.ScanInt64Array (some []) emptyArrayText).1 = some [])
    (hbools : (lib.ScanBoolArray (some []) emptyArrayText).1 = some [])
    (hlast : ∀ cv ∈ (rowCells columnTypes row).drop (i + 1), cv.1.Name = c.Name →
      cellOutcome lib cv.1 cv.2 = .skips) :
    ∃ m : GoMap, maps.elems[j]? = some m ∧
      (c.DatabaseTypeName = "_TEXT" ∨ c.DatabaseTypeName = "_UUID" →
        m.lookup c.Name = some (.strings (some []))) ∧
      (c.DatabaseTypeName = "_NUMERIC" ∨ c.DatabaseTypeName = "_DECIMAL" →
        m.lookup c.Name = some (.float64s (some []))) ∧
      (c.DatabaseTypeName = "_INT4" → m.lookup c.Name = some (.int64s (some []))) ∧
      (c.DatabaseTypeName = "_BOOL" → m.lookup c.Name = some (.bools (some []))) ∧
      ∀ m0, ∃ w ∈ [GoValue.strings (some []), GoValue.float64s (some []),
          GoValue.int64s (some []), GoValue.bools (some [])],
        columnStep lib c (.bytes emptyArrayText) m0 = .ok (m0.store c.Name w) := by
  obtain ⟨m, hmj, hrow⟩ := DynamicResultMaps_row lib rows rows' columnTypes maps none hct hm j row hj
  have hcell := rowCells_deposited columnTypes row i c _ hc hd
  have key : ∀ w, cellOutcome lib c (.bytes emptyArrayText) = .stores w →
      m.lookup c.Name = some w :=
    fun w hw => columnLoop_lookup_last lib _ i GoMap.make m c _ w hrow hcell hw hlast
  have h1 : c.DatabaseTypeName = "_TEXT" ∨ c.DatabaseTypeName = "_UUID" →
      m.lookup c.Name = some (.strings (some [])) := fun h =>
    key _ (by rw [cellOutcome_string_array lib c _ h, hstrings])
  have h2 : c.DatabaseTypeName = "_NUMERIC" ∨ c.DatabaseTypeName = "_DECIMAL" →
      m.lookup c.Name = some (.float64s (some [])) := fun h =>
    key _ (by rw [cellOutcome_float64_array lib c _ h, hfloats])
  have h3 : c.DatabaseTypeName = "_INT4" → m.lookup c.Name = some (.int64s (some [])) :=
    fun h => key _ (by rw [cellOutcome_int64_array lib c _ h, hints])
  have h4 : c.DatabaseTypeName = "_BOOL" → m.lookup c.Name = some (.bools (some [])) :=
    fun h => key _ (by rw [cellOutcome_bool_array lib c _ h, hbools])
  refine ⟨m, hmj, h1, h2, h3, h4, ?_⟩
  intro m0
  simp only [List.mem_cons, List.mem_singleton, List.not_mem_nil, or_false] at ht
  rcases ht with ht | ht | ht | ht | ht | ht
  · exact ⟨.strings (some []), by simp,
      by rw [columnStep_eq, cellOutcome_string_array lib c _ (Or.inl ht), hstrings]⟩
  · exact ⟨.strings (some []), by simp,
      by rw [columnStep_eq, cellOutcome_string_array lib c _ (Or.inr ht), hstrings]⟩
  · exact ⟨.float64s (some []), by simp,
      by rw [columnStep_eq, cellOutcome_float64_array lib c _ (Or.inl ht), hfloats]⟩
  · exact ⟨.float64s (some []), by simp,
      by rw [columnStep_eq, cellOutcome_float64_array lib c _ (Or.inr ht), hfloats]⟩
  · exact ⟨.int64s (some []), by simp,
      by rw [columnStep_eq, cellOutcome_int64_array lib c _ ht, hints]⟩
  · exact ⟨.bools (some []), by simp,
      by rw [columnStep_eq, cellOutcome_bool_array lib c _ ht, hbools]⟩

/-! ## The theorems at concrete cursors -/

/-- The theorem `numeric_parse_failure_skips` on the first row of `sampleRows`: no `amount`
entry, and `id` is present. -/
theorem numeric_parse_failure_skips_witness :
    (tableLib.ParseFloat (ascii "NaNgarbage")).2 ≠ none ∧
      ∃ m : GoMap, rowMapping tableLib
          [⟨"id", "INT4", "int32"⟩, ⟨"amount", "NUMERIC", "interface \x7b\x7d"⟩]
          ⟨[some (.int64 1), some (.bytes (ascii "NaNgarbage"))], none⟩ = .ok m ∧
        m.lookup "amount" = none ∧ m.lookup "id" = some (.int64 1) := by
  refine ⟨by decide, ?_⟩
  obtain ⟨m, h1, _, h3, h4, _⟩ := numeric_parse_failure_skips tableLib
    [⟨"id", "INT4", "int32"⟩, ⟨"amount", "NUMERIC", "interface \x7b\x7d"⟩]
    ⟨[some (.int64 1), some (.bytes (ascii "NaNgarbage"))], none⟩ 1
    ⟨"amount", "NUMERIC", "interface \x7b\x7d"⟩ (ascii "NaNgarbage") rfl (Or.inl rfl) rfl
    (by decide) (by decide)
  exact ⟨m, h1, h3 (by decide),
    h4 0 ⟨"id", "INT4", "int32"⟩ (.int64 1) (.int64 1) rfl rfl (by decide)⟩

/-- C4 as stated fails: with columns `amount text, amount numeric` and a numeric text that
`strconv.ParseFloat` rejects, the row's mapping has an entry under `amount`, the text
column's. -/
theorem numeric_parse_failure_counterexample :
    (tableLib.ParseFloat (ascii "NaNgarbage")).2 ≠ none ∧
      DynamicResultMaps tableLib numericCollisionRows =
        (.returned (some [[("amount", .string (ascii "n/a"))]]) none,
          { numericCollisionRows with pending := [], advanced := 1 }) ∧
      GoMap.lookup [("amount", .string (ascii "n/a"))] "amount" ≠ none := by
  refine ⟨by decide, rfl, by decide⟩

/-- The theorem `last_storing_column_wins` on `collidingRows`: columns `id, id` with the values
1 and 2 give the mapping of `id` to 2 and the sequence of 2 and 2. -/
theorem last_storing_column_wins_witness :
    ∃ m : GoMap, [[("id", GoValue.int64 2)]][0]? = some m ∧ m.lookup "id" = some (.int64 2) ∧
      ∃ slices s, DynamicResultSlices tableLib collidingRows =
          (.returned slices none, { collidingRows with pending := [], advanced := 1 }) ∧
        slices.elems[0]? = some s ∧
        ∀ (k : Nat), ["id", "id"][k]? = some "id" → s[k]? = some (GoValue.int64 2) :=
  last_storing_column_wins tableLib collidingRows
    { collidingRows with pending := [], advanced := 1 }
    [⟨"id", "INT4", "int32"⟩, ⟨"id", "INT4", "int32"⟩] ["id", "id"]
    (some [[("id", .int64 2)]]) rfl rfl rfl 0 ⟨[some (.int64 1), some (.int64 2)], none⟩ rfl
    1 ⟨"id", "INT4", "int32"⟩ (.int64 2) (.int64 2) rfl rfl (by decide)

/-- C5 as stated fails: with three columns `id` holding 1, 2 and 3 the mapping holds 3, not
the value 2 of the later column of the pair of the first two; and with columns
`id integer, id numeric` where the numeric text does not parse, the mapping and both
positions of the sequence hold the earlier column's 1. -/
theorem later_column_counterexample :
    DynamicResultMaps tableLib tripleIdRows =
        (.returned (some [[("id", .int64 3)]]) none,
          { tripleIdRows with pending := [], advanced := 1 }) ∧
      GoMap.lookup [("id", .int64 3)] "id" ≠ some (.int64 2) ∧
      DynamicResultMaps tableLib idThenNumericRows =
        (.returned (some [[("id", .int64 1)]]) none,
          { idThenNumericRows with pending := [], advanced := 1 }) ∧
      DynamicResultSlices tableLib idThenNumericRows =
        (.returned (some [[.int64 1, .int64 1]]) none,
          { idThenNumericRows with pending := [], advanced := 1 }) := by
  refine ⟨rfl, by decide, rfl, rfl⟩

/-- The theorem `passthrough_stores_scanned_value` on the second row of `sampleRows`, at the
column `id`. -/
theorem passthrough_stores_scanned_value_witness :
    (∀ m0, columnStep tableLib ⟨"id", "INT4", "int32"⟩ (.int64 2) m0 =
        .ok (m0.store "id" (.int64 2))) ∧
      ∃ m : GoMap, [[("id", GoValue.int64 1)],
          [("id", GoValue.int64 2), ("amount", GoValue.float64 ⟨0x3FF8000000000000⟩)]][1]? =
            some m ∧
        m.lookup "id" = some (.int64 2) :=
  passthrough_stores_scanned_value tableLib sampleRows sampleRowsDone
    [⟨"id", "INT4", "int32"⟩, ⟨"amount", "NUMERIC", "interface \x7b\x7d"⟩]
    (some [[("id", .int64 1)], [("id", .int64 2), ("amount", .float64 ⟨0x3FF8000000000000⟩)]])
    rfl rfl 1 ⟨[some (.int64 2), some (.bytes (ascii "1.5"))], none⟩ rfl
    0 ⟨"id", "INT4", "int32"⟩ (.int64 2) rfl (by decide) rfl (by decide)

/-- C8 as stated fails: with columns `x integer, x text` the scan deposits 1 for the first
column, whose type is passed through, and the row's mapping holds the text `a` under `x`. -/
theorem passthrough_counterexample :
    DynamicResultMaps tableLib passthroughCollisionRows =
        (.returned (some [[("x", .string (ascii "a"))]]) none,
          { passthroughCollisionRows with pending := [], advanced := 1 }) ∧
      GoMap.lookup [("x", .string (ascii "a"))] "x" ≠ some (.int64 1) := by
  refine ⟨rfl, by decide⟩

/-- The theorem `uuid_stores_text` on `uuidRows`. -/
theorem uuid_stores_text_witness :
    (∀ m0, columnStep tableLib ⟨"u", "UUID", "interface \x7b\x7d"⟩ (.bytes uuidText) m0 =
        .ok (m0.store "u" (.string uuidText))) ∧
      ∃ m : GoMap, [[("u", GoValue.string uuidText)]][0]? = some m ∧
        m.lookup "u" = some (.string uuidText) :=
  uuid_stores_text tableLib uuidRows { uuidRows with pending := [], advanced := 1 }
    [⟨"u", "UUID", "interface \x7b\x7d"⟩] (some [[("u", .string uuidText)]])
    rfl rfl 0 ⟨[some (.bytes uuidText)], none⟩ rfl
    0 ⟨"u", "UUID", "interface \x7b\x7d"⟩ uuidText rfl rfl rfl (by decide)

/-- C9 as stated fails: with two UUID columns `u` holding different byte strings, the
row's mapping holds under `u` the string of the second, not that of the first. -/
theorem uuid_counterexample :
    DynamicResultMaps tableLib uuidCollisionRows =
        (.returned (some [[("u", .string otherUuidText)]]) none,
          { uuidCollisionRows with pending := [], advanced := 1 }) ∧
      GoMap.lookup [("u", .string otherUuidText)] "u" ≠ some (.string uuidText) := by
  refine ⟨rfl, by decide⟩

/-- The theorem `empty_array_decodes_empty` on `arrayRows`, with the library `tableLib`. -/
theorem empty_array_decodes_empty_witness :
    ∃ m : GoMap, [[("tags", GoValue.strings (some []))]][0]? = some m ∧
      m.lookup "tags" = some (.strings (some [])) := by
  obtain ⟨m, h0, h1, _⟩ := empty_array_decodes_empty tableLib arrayRows
    { arrayRows with pending := [], advanced := 1 }
    [⟨"tags", "_TEXT", "interface \x7b\x7d"⟩] (some [[("tags", .strings (some []))]])
    rfl rfl 0 ⟨[some (.bytes emptyArrayText)], none⟩ rfl
    0 ⟨"tags", "_TEXT", "interface \x7b\x7d"⟩ rfl (by decide) rfl rfl rfl rfl rfl (by decide)
  exact ⟨m, h0, h1 (Or.inl rfl)⟩

/-- C10 as stated fails: with columns `tags text[], tags integer` and the empty array as
the first cell, the row's mapping holds the integer 7 under `tags`, not an empty sequence
of strings. -/
theorem empty_array_counterexample :
    DynamicResultMaps tableLib arrayCollisionRows =
        (.returned (some [[("tags", .int64 7)]]) none,
          { arrayCollisionRows with pending := [], advanced := 1 }) ∧
      GoMap.lookup [("tags", .int64 7)] "tags" ≠ some (.strings (some [])) := by
  refine ⟨rfl, by decide⟩

end DynamicScan
